import Mathlib

/-!
Verification development for the Semantic Scholar scraper in src/main.py.

The scraper is embedded shallowly: every DOM interaction of the source is
represented by the data it returns (a card records what each selector query
yielded, an author profile records what the stat queries and body text
yielded), and every pure computation of the source (string parsing, id
derivation, dedup at export, the crawl and visit loops) is translated
directly into executable Lean definitions. Machine integers are Nat or Int
with explicit reductions modulo powers of two where the source wraps.
-/

/-! Section 1: Python string primitives used by the scraper. -/

/-- Whitespace characters of Python str.strip and of the regex class for
whitespace (space, tab, newline, carriage return, vertical tab, form feed). -/
def isPySpace (c : Char) : Bool :=
  c == ' ' || c == '\t' || c == '\n' || c == '\r' || c == '\x0b' || c == '\x0c'

/-- Characters matched by the regex group of digits and commas. -/
def isDigitComma (c : Char) : Bool := c.isDigit || c == ','

/-- Python str.strip on a character list: drop leading and trailing whitespace. -/
def pyStripList (l : List Char) : List Char :=
  ((l.dropWhile isPySpace).reverse.dropWhile isPySpace).reverse

/-- Python str.strip. -/
def pyStrip (s : String) : String := String.mk (pyStripList s.toList)

/-- Python str.rstrip with a slash argument: drop trailing slash characters. -/
def rstripSlash (l : List Char) : List Char :=
  (l.reverse.dropWhile (fun c => c == '/')).reverse

/-- Last element of a Python split on slash: the suffix after the final slash. -/
def lastComp (l : List Char) : String :=
  String.mk ((l.reverse.takeWhile (fun c => c != '/')).reverse)

/-- Python substring containment test, pat in l. -/
def hasSubstr (pat : List Char) : List Char → Bool
  | [] => pat.isEmpty
  | c :: rest => pat.isPrefixOf (c :: rest) || hasSubstr pat rest

/-- Leftmost maximal run of digits and commas, the group returned by a regex
search for one or more digit-or-comma characters; none when no such character
occurs. -/
def firstNumToken : List Char → Option (List Char)
  | [] => none
  | c :: rest =>
    if isDigitComma c then some (c :: rest.takeWhile isDigitComma)
    else firstNumToken rest

/-- Remove every comma, the replace step applied before Python int. -/
def stripCommas (l : List Char) : List Char := l.filter (fun c => c != ',')

/-- Python int on an unsigned string: succeeds exactly on a nonempty all-digit
string, otherwise raises ValueError, modelled as none. -/
def digitsToNat : List Char → Option Nat
  | [] => none
  | l =>
    if l.all Char.isDigit then
      some (l.foldl (fun a c => a * 10 + (c.toNat - 48)) 0)
    else none

/-- The numeric parse the source applies to every citation candidate: strip
commas from the matched digit-and-comma group, then Python int. -/
def parseNumToken (l : List Char) : Option Nat := digitsToNat (stripCommas l)

/-- Python int applied to a command line argument: optional surrounding
whitespace, an optional sign, then decimal digits (digit-group underscores are
not modelled; none of the properties below depends on them). -/
def pyInt (s : String) : Option Int :=
  match pyStripList s.toList with
  | '-' :: ds => (digitsToNat ds).map (fun n => -(n : Int))
  | '+' :: ds => (digitsToNat ds).map (fun n => (n : Int))
  | ds => (digitsToNat ds).map (fun n => (n : Int))

/-! Section 2: MD5, the hash behind the fallback paper id
(hashlib.md5 of the UTF-8 encoded title, hex digest). -/

/-- UTF-8 encoding of one code point as byte values. -/
def utf8Char (n : Nat) : List Nat :=
  if n < 128 then [n]
  else if n < 2048 then [192 + n / 64, 128 + n % 64]
  else if n < 65536 then [224 + n / 4096, 128 + n / 64 % 64, 128 + n % 64]
  else [240 + n / 262144, 128 + n / 4096 % 64, 128 + n / 64 % 64, 128 + n % 64]

/-- UTF-8 encoding of a string as byte values, Python str.encode. -/
def utf8Encode (s : String) : List Nat :=
  (s.toList.map (fun c => utf8Char c.toNat)).flatten

/-- Rotate a 32-bit word left by s bits. -/
def rotl32 (x s : Nat) : Nat := (x % 2 ^ (32 - s)) * 2 ^ s + x / 2 ^ (32 - s)

/-- The 64 MD5 sine constants. -/
def md5K : List Nat :=
  [0xd76aa478, 0xe8c7b756, 0x242070db, 0xc1bdceee,
   0xf57c0faf, 0x4787c62a, 0xa8304613, 0xfd469501,
   0x698098d8, 0x8b44f7af, 0xffff5bb1, 0x895cd7be,
   0x6b901122, 0xfd987193, 0xa679438e, 0x49b40821,
   0xf61e2562, 0xc040b340, 0x265e5a51, 0xe9b6c7aa,
   0xd62f105d, 0x02441453, 0xd8a1e681, 0xe7d3fbc8,
   0x21e1cde6, 0xc33707d6, 0xf4d50d87, 0x455a14ed,
   0xa9e3e905, 0xfcefa3f8, 0x676f02d9, 0x8d2a4c8a,
   0xfffa3942, 0x8771f681, 0x6d9d6122, 0xfde5380c,
   0xa4beea44, 0x4bdecfa9, 0xf6bb4b60, 0xbebfbc70,
   0x289b7ec6, 0xeaa127fa, 0xd4ef3085, 0x04881d05,
   0xd9d4d039, 0xe6db99e5, 0x1fa27cf8, 0xc4ac5665,
   0xf4292244, 0x432aff97, 0xab9423a7, 0xfc93a039,
   0x655b59c3, 0x8f0ccc92, 0xffeff47d, 0x85845dd1,
   0x6fa87e4f, 0xfe2ce6e0, 0xa3014314, 0x4e0811a1,
   0xf7537e82, 0xbd3af235, 0x2ad7d2bb, 0xeb86d391]

/-- The 64 MD5 per-round left-rotation amounts. -/
def md5S : List Nat :=
  [7, 12, 17, 22, 7, 12, 17, 22, 7, 12, 17, 22, 7, 12, 17, 22,
   5, 9, 14, 20, 5, 9, 14, 20, 5, 9, 14, 20, 5, 9, 14, 20,
   4, 11, 16, 23, 4, 11, 16, 23, 4, 11, 16, 23, 4, 11, 16, 23,
   6, 10, 15, 21, 6, 10, 15, 21, 6, 10, 15, 21, 6, 10, 15, 21]

/-- Little-endian 32-bit word assembled from four bytes of a chunk. -/
def wordAt (chunk : List Nat) (g : Nat) : Nat :=
  chunk.getD (4 * g) 0 + 256 * chunk.getD (4 * g + 1) 0 +
    65536 * chunk.getD (4 * g + 2) 0 + 16777216 * chunk.getD (4 * g + 3) 0

/-- One MD5 operation, i ranging over 0 to 63. -/
def md5Step (m : Nat → Nat) (st : Nat × Nat × Nat × Nat) (i : Nat) :
    Nat × Nat × Nat × Nat :=
  match st with
  | (a, b, c, d) =>
    let f :=
      if i < 16 then (b &&& c) ||| ((4294967295 ^^^ b) &&& d)
      else if i < 32 then (d &&& b) ||| ((4294967295 ^^^ d) &&& c)
      else if i < 48 then b ^^^ c ^^^ d
      else c ^^^ (b ||| (4294967295 ^^^ d))
    let g :=
      if i < 16 then i
      else if i < 32 then (5 * i + 1) % 16
      else if i < 48 then (3 * i + 5) % 16
      else 7 * i % 16
    let t := (f + a + md5K.getD i 0 + m g) % 4294967296
    (d, (b + rotl32 t (md5S.getD i 0)) % 4294967296, b, c)

/-- Process one 64-byte chunk. -/
def md5Chunk (st : Nat × Nat × Nat × Nat) (chunk : List Nat) :
    Nat × Nat × Nat × Nat :=
  match st, (List.range 64).foldl (md5Step (wordAt chunk)) st with
  | (a0, b0, c0, d0), (a, b, c, d) =>
    ((a0 + a) % 4294967296, (b0 + b) % 4294967296,
     (c0 + c) % 4294967296, (d0 + d) % 4294967296)

/-- Process a padded message chunk by chunk. -/
def md5Chunks (st : Nat × Nat × Nat × Nat) (bytes : List Nat) :
    Nat × Nat × Nat × Nat :=
  if h : bytes.isEmpty then st
  else md5Chunks (md5Chunk st (bytes.take 64)) (bytes.drop 64)
termination_by bytes.length
decreasing_by
  cases bytes with
  | nil => simp at h
  | cons x xs => simp [List.length_drop]; omega

/-- Little-endian bytes of a 32-bit word. -/
def leBytes4 (w : Nat) : List Nat :=
  [w % 256, w / 256 % 256, w / 65536 % 256, w / 16777216 % 256]

/-- MD5 padding: a 0x80 byte, zeros to 56 modulo 64, then the bit length as a
64-bit little-endian quantity. -/
def md5Pad (msg : List Nat) : List Nat :=
  msg ++ [128] ++ List.replicate ((120 - (msg.length + 1) % 64) % 64) 0 ++
    leBytes4 (msg.length * 8 % 4294967296) ++
    leBytes4 (msg.length * 8 / 4294967296 % 4294967296)

/-- Lowercase hex digit. -/
def hexDigit (n : Nat) : Char :=
  if n < 10 then Char.ofNat (48 + n) else Char.ofNat (87 + n)

/-- Two lowercase hex digits of a byte. -/
def hexByte (b : Nat) : List Char := [hexDigit (b / 16), hexDigit (b % 16)]

/-- The 32 hex characters of the MD5 digest of a string, hashlib md5
hexdigest of the UTF-8 encoding. -/
def md5HexChars (s : String) : List Char :=
  match md5Chunks (1732584193, 4023233417, 2562383102, 271733878)
      (md5Pad (utf8Encode s)) with
  | (a, b, c, d) =>
    ((leBytes4 a ++ leBytes4 b ++ leBytes4 c ++ leBytes4 d).map hexByte).flatten

/-- Fallback paper id of the source: the first 16 hex characters of the MD5
digest of the title. -/
def fallbackId (title : String) : String :=
  String.mk ((md5HexChars title).take 16)

/-! Section 3: the data model. A card is one search result fragment,
characterized by what each DOM query of the source returns on it: titleHits
holds the inner text per title selector in source order (none when the
selector matched nothing), linkHits holds one entry per link selector (none
when no element matched, some h when an element matched with href attribute
h, itself none when the attribute is absent), yearHit the pubdates text,
citationHits the two citation selectors, authorHits the list of
(inner text, href attribute) pairs per author selector. -/

structure Card where
  titleHits : List (Option String)
  linkHits : List (Option (Option String))
  yearHit : Option String
  citationHits : List (Option String)
  authorHits : List (List (String × Option String))
  deriving DecidableEq, Repr

/-- Row of the papers table collected during page parsing. -/
structure PaperRow where
  paper_id : String
  title : String
  url : String
  year : Option Nat
  citation_count : Option Nat
  deriving DecidableEq, Repr

/-- Value of the authors dictionary: citation_count is none until a profile
visit stores a number, and set back to none when the visit fails. -/
structure AuthorRec where
  author_id : String
  name : String
  profile_url : String
  citation_count : Option Nat
  deriving DecidableEq, Repr

/-- Row of the paper to author relation table. -/
structure LinkRow where
  paper_id : String
  author_id : String
  deriving DecidableEq, Repr

/-- The ambient collections of the scraper object: the papers list, the
authors dictionary in insertion order, the relation rows, and the set of
author urls still to visit (represented in insertion order; the source adds a
url only when its author id is new, so entries never repeat). -/
structure ScrapeState where
  papers : List PaperRow
  authors : List (String × AuthorRec)
  paper_authors : List LinkRow
  queue : List String
  deriving DecidableEq, Repr

/-! Section 4: field extraction from one card, following the selector
fallback loops of the source line by line. -/

/-- First query that returned an element: the break-on-first-hit loop. -/
def firstSome {α : Type} : List (Option α) → Option α
  | [] => none
  | some a :: _ => some a
  | none :: t => firstSome t

/-- First query that returned a nonempty element list. -/
def firstNonempty {α : Type} : List (List α) → List α
  | [] => []
  | [] :: t => firstNonempty t
  | (a :: l) :: _ => a :: l

def baseUrl : String := "https://www.semanticscholar.org"

/-- Title extraction: the stripped inner text of the first title selector
that matched, defaulting to the Unknown Title sentinel. -/
def cardTitle (c : Card) : String :=
  match firstSome c.titleHits with
  | some t => pyStrip t
  | none => "Unknown Title"

/-- Link extraction: walk the link selectors in order; a matched element
whose href is present, nonempty (Python truthiness) and contains the paper
path segment yields the absolute url and the last component of the
slash-stripped href; any other matched element falls through to the next
selector. -/
def resolvePaperLink : List (Option (Option String)) → Option (String × String)
  | [] => none
  | none :: rest => resolvePaperLink rest
  | some none :: rest => resolvePaperLink rest
  | some (some u) :: rest =>
    if u != "" && hasSubstr ("/paper/".toList) u.toList then
      some ((if ("http".toList).isPrefixOf u.toList then u else baseUrl ++ u),
        lastComp (rstripSlash u.toList))
    else resolvePaperLink rest

/-- Paper id: the url-derived id when extraction succeeded with a nonempty
id, otherwise the MD5 fallback on the title (the Python falsiness test). -/
def paperIdOf (c : Card) : String :=
  match resolvePaperLink c.linkHits with
  | some (_, pid) => if pid = "" then fallbackId (cardTitle c) else pid
  | none => fallbackId (cardTitle c)

/-- Paper url, with the N/A sentinel when no link was extracted. -/
def paperUrlOf (c : Card) : String :=
  match resolvePaperLink c.linkHits with
  | some (u, _) => u
  | none => "N/A"

/-- Word characters of the regex word-boundary assertion. -/
def isWordChar (c : Char) : Bool := c.isAlphanum || c == '_'

/-- Match of the year regex at one position: a word boundary, the digits 19
or 20, two further digits, and a word boundary after. -/
def yearAt (prev : Option Char) (l : List Char) : Option Nat :=
  match l with
  | d1 :: d2 :: d3 :: d4 :: rest =>
    if (match prev with | some p => !isWordChar p | none => true)
        && ((d1 == '1' && d2 == '9') || (d1 == '2' && d2 == '0'))
        && d3.isDigit && d4.isDigit
        && (match rest with | r :: _ => !isWordChar r | [] => true) then
      some (((d1.toNat - 48) * 10 + (d2.toNat - 48)) * 100 +
        (d3.toNat - 48) * 10 + (d4.toNat - 48))
    else none
  | _ => none

/-- Leftmost match of the year regex. -/
def findYearAux (prev : Option Char) : List Char → Option Nat
  | [] => none
  | c :: rest =>
    match yearAt prev (c :: rest) with
    | some y => some y
    | none => findYearAux (some c) rest

/-- Year extraction from the pubdates element when it matched. -/
def cardYear (c : Card) : Option Nat :=
  match c.yearHit with
  | some t => findYearAux none t.toList
  | none => none

/-- Citation extraction on a card: the first of the two citation selectors
that matched, its first digit-and-comma group, commas stripped, Python int;
none at every failure point. -/
def cardCitation (c : Card) : Option Nat :=
  match firstSome c.citationHits with
  | some t =>
    match firstNumToken t.toList with
    | some tok => parseNumToken tok
    | none => none
  | none => none

/-- Author elements: the first author selector with a nonempty match. -/
def cardAuthorEls (c : Card) : List (String × Option String) :=
  firstNonempty c.authorHits

/-- The paper row appended for one card. -/
def paperRowOf (c : Card) : PaperRow :=
  ⟨paperIdOf c, cardTitle c, paperUrlOf c, cardYear c, cardCitation c⟩

/-! Section 5: state updates while parsing a page of cards. -/

/-- Python truthiness and containment test guarding author processing. -/
def authorHrefValid (href : String) : Bool :=
  href != "" && hasSubstr ("/author/".toList) href.toList

/-- Author id stored for an href: last component after stripping trailing
slashes (the search-results side of the source strips; the profile-visit side
does not). -/
def authorIdOfHref (href : String) : String := lastComp (rstripSlash href.toList)

/-- Absolute profile url for an href. -/
def fullAuthorUrl (href : String) : String :=
  if ("http".toList).isPrefixOf href.toList then href else baseUrl ++ href

/-- Membership test on the authors dictionary. -/
def hasAuthorKey (m : List (String × AuthorRec)) (k : String) : Bool :=
  m.any (fun e => e.1 == k)

/-- Processing of one author element of a card: a valid href appends a
relation row, and additionally registers the author and queues its url when
the id is new. -/
def processAuthorEl (pid : String) (st : ScrapeState) (ae : String × Option String) :
    ScrapeState :=
  match ae.2 with
  | none => st
  | some href =>
    if authorHrefValid href then
      let aid := authorIdOfHref href
      let st1 : ScrapeState :=
        { st with paper_authors := st.paper_authors ++ [⟨pid, aid⟩] }
      if hasAuthorKey st1.authors aid then st1
      else
        { st1 with
          authors := st1.authors ++ [(aid, ⟨aid, pyStrip ae.1, fullAuthorUrl href, none⟩)],
          queue := st1.queue ++ [fullAuthorUrl href] }
    else st

/-- The relation row an author element contributes, if any. -/
def linkOf (pid : String) (ae : String × Option String) : Option LinkRow :=
  match ae.2 with
  | none => none
  | some href =>
    if authorHrefValid href then some ⟨pid, authorIdOfHref href⟩ else none

/-- All relation rows contributed by one card. -/
def linkRowsOfCard (c : Card) : List LinkRow :=
  (cardAuthorEls c).filterMap (linkOf (paperIdOf c))

/-- Processing of one card: append the paper row, then fold the author
elements. -/
def processCard (st : ScrapeState) (c : Card) : ScrapeState :=
  (cardAuthorEls c).foldl (processAuthorEl (paperIdOf c))
    { st with papers := st.papers ++ [paperRowOf c] }

/-- The per-card loop of a page, with the break once the collected paper
count reaches the limit (checked before each card, as in the source). -/
def processCards (limit : Int) : ScrapeState → List Card → ScrapeState
  | st, [] => st
  | st, c :: cs =>
    if limit ≤ (st.papers.length : Int) then st
    else processCards limit (processCard st c) cs

/-! Section 6: export. The pandas drop-duplicates call keeps the first row
per key; on the empty papers list the frame has no columns at all and the
subset argument raises KeyError before anything is written. -/

/-- Keep-first deduplication by key, with the set of already seen keys. -/
def dedupByAux {α β : Type} [DecidableEq β] (f : α → β) (seen : List β) :
    List α → List α
  | [] => []
  | x :: xs =>
    if f x ∈ seen then dedupByAux f seen xs
    else x :: dedupByAux f (f x :: seen) xs

/-- Keep-first deduplication by key, the semantics of pandas drop-duplicates
with keep equal to first. -/
def dedupBy {α β : Type} [DecidableEq β] (f : α → β) (l : List α) : List α :=
  dedupByAux f [] l

/-- The papers table as exported: deduplicated on paper_id, first seen wins. -/
def exportedPapers (st : ScrapeState) : List PaperRow :=
  dedupBy (fun r => r.paper_id) st.papers

/-- The relation table as exported: deduplicated on the whole row, which is
exactly the (paper_id, author_id) pair. -/
def exportedPaperAuthors (st : ScrapeState) : List LinkRow :=
  dedupBy (fun r => r) st.paper_authors

/-- Outcome of the export routine: the csv files written before any raise,
and the exception raised, if any. Empty papers make the first drop-duplicates
call raise KeyError (the empty frame has no paper_id column) before any file
is written; otherwise all three files are written, and the summary division
by the paper count cannot raise because the deduplicated nonempty table is
nonempty. -/
structure ExportOutcome where
  filesWritten : List String
  errorRaised : Option String
  deriving DecidableEq, Repr

/-- The export routine. -/
def exportData (st : ScrapeState) : ExportOutcome :=
  if st.papers.isEmpty then ⟨[], some ("KeyError: paper_id")⟩
  else if (exportedPapers st).length = 0 then
    ⟨["papers.csv", "authors.csv", "paper_authors.csv"], some ("ZeroDivisionError")⟩
  else ⟨["papers.csv", "authors.csv", "paper_authors.csv"], none⟩

/-! Section 7: the citation heuristic on an author profile. A successfully
loaded profile is characterized by whether the stats container appeared in
time, the inner texts returned by the four stat selectors, and the body
text. -/

structure AuthorProfile where
  statsLoaded : Bool
  statHits : List (List String)
  bodyText : String
  deriving DecidableEq, Repr

/-- One element of the structured layer: regex-search its text for a
digit-and-comma group, parse it, and keep the running maximum of values
inside the plausibility range; everything else leaves the accumulator
unchanged. -/
def strategy1Step (acc : Nat) (text : String) : Nat :=
  match firstNumToken text.toList with
  | none => acc
  | some tok =>
    match parseNumToken tok with
    | none => acc
    | some v => if 0 ≤ v ∧ v ≤ 1000000 then max acc v else acc

/-- The structured layer: every element of every stat selector, in order. -/
def strategy1 (statHits : List (List String)) : Nat :=
  statHits.foldl (fun acc grp => grp.foldl strategy1Step acc) 0

/-- Case-insensitive literal match, returning the rest of the input. -/
def matchCaseless : List Char → List Char → Option (List Char)
  | [], l => some l
  | _ :: _, [] => none
  | p :: ps, c :: cs =>
    if p.toLower == c.toLower then matchCaseless ps cs else none

/-- Greedy whitespace skip, the regex star over whitespace. -/
def skipWs (l : List Char) : List Char := l.dropWhile isPySpace

/-- Match at one position of the first body pattern: a digit-and-comma
group, optional whitespace, an optional Total word followed by whitespace,
then Citation case-insensitively (an optional trailing s constrains
nothing). Greedy matching is exact here: after a shorter group a digit or
comma would remain, which can start neither whitespace nor a word. -/
def p1At (l : List Char) : Option (List Char) :=
  let tok := l.takeWhile isDigitComma
  if tok.isEmpty then none
  else
    let rest := skipWs (l.drop tok.length)
    let withTotal :=
      match matchCaseless ("total".toList) rest with
      | some r =>
        match r with
        | c :: r2 => isPySpace c && (matchCaseless ("citation".toList) (skipWs r2)).isSome
        | [] => false
      | none => false
    if withTotal || (matchCaseless ("citation".toList) rest).isSome then some tok
    else none

/-- Match at one position of the second body pattern: Citation with optional
s, optional whitespace, an optional colon or hyphen, optional whitespace,
then the digit-and-comma group. -/
def p2At (l : List Char) : Option (List Char) :=
  match matchCaseless ("citation".toList) l with
  | none => none
  | some r0 =>
    let r1 := match r0 with
      | c :: t => if c.toLower == 's' then t else c :: t
      | [] => []
    let r2 := skipWs r1
    let r3 := match r2 with
      | ':' :: t => t
      | '-' :: t => t
      | c :: t => c :: t
      | [] => []
    let tok := (skipWs r3).takeWhile isDigitComma
    if tok.isEmpty then none else some tok

/-- Match at one position of the third body pattern: the group, then a
whitespace run containing at least one newline, then Citation. -/
def p3At (l : List Char) : Option (List Char) :=
  let tok := l.takeWhile isDigitComma
  if tok.isEmpty then none
  else
    let rest := l.drop tok.length
    let ws := rest.takeWhile isPySpace
    if ws.contains '\n' && (matchCaseless ("citation".toList) (rest.drop ws.length)).isSome
    then some tok
    else none

/-- Leftmost match of a pattern: regex search tries each start position in
order. -/
def searchPat (patAt : List Char → Option (List Char)) : List Char → Option (List Char)
  | [] => patAt []
  | c :: rest =>
    match patAt (c :: rest) with
    | some g => some g
    | none => searchPat patAt rest

/-- The free-text layer: the three patterns in order; a pattern whose match
fails Python int moves on to the next pattern; no range check is applied
here. -/
def strategy3 (body : List Char) : Nat :=
  match (searchPat p1At body).bind parseNumToken with
  | some v => v
  | none =>
    match (searchPat p2At body).bind parseNumToken with
    | some v => v
    | none =>
      match (searchPat p3At body).bind parseNumToken with
      | some v => v
      | none => 0

/-- The citation count recorded for a successfully loaded profile: zero when
the stats container never appeared; otherwise the structured layer, and the
free-text layer only when the structured layer produced zero. -/
def extractCitationCount (p : AuthorProfile) : Nat :=
  if p.statsLoaded then
    let c1 := strategy1 p.statHits
    if c1 = 0 then strategy3 p.bodyText.toList else c1
  else 0

/-! Section 8: the author visit loop. The outcome of one navigation attempt
is either a raise or a loaded profile. The authors dictionary is updated at
the id computed from the queued url without stripping slashes; a missing key
raises KeyError both on the success path and, decisively, inside the failure
handler, so a missing key aborts the whole loop either way. -/

inductive VisitOutcome where
  | failed
  | loaded (profile : AuthorProfile)
  deriving DecidableEq, Repr

/-- Assignment to the citation field of the authors dictionary at a key:
KeyError (the key) when absent. -/
def setCitation (m : List (String × AuthorRec)) (k : String) (v : Option Nat) :
    Except String (List (String × AuthorRec)) :=
  if hasAuthorKey m k then
    Except.ok (m.map (fun e => if e.1 = k then (e.1, { e.2 with citation_count := v }) else e))
  else Except.error k

/-- One author visit: id from the url (no slash stripping, as in the visit
loop of the source), then the citation field update; a failed visit records
none, a loaded profile records the extracted count. -/
def visitAuthor (m : List (String × AuthorRec)) (url : String) (out : VisitOutcome) :
    Except String (List (String × AuthorRec)) :=
  match out with
  | .loaded p => setCitation m (lastComp url.toList) (some (extractCitationCount p))
  | .failed => setCitation m (lastComp url.toList) none

/-- The sequential author queue drain; an uncaught KeyError aborts it. -/
def scrapeAuthorProfiles (m : List (String × AuthorRec)) (queue : List String)
    (visits : String → VisitOutcome) : Except String (List (String × AuthorRec)) :=
  match queue with
  | [] => Except.ok m
  | u :: rest =>
    match visitAuthor m u (visits u) with
    | Except.ok m2 => scrapeAuthorProfiles m2 rest visits
    | Except.error e => Except.error e

/-! Section 9: the search-results crawl loop. A fetched page is
characterized by whether one of the two awaited result selectors appeared in
time, by the card lists the four query selectors return, and by the next
button query results. -/

/-- A next-page button: its disabled attribute and its enabled state. -/
structure NextBtn where
  disabledAttr : Option String
  enabled : Bool
  deriving DecidableEq, Repr

/-- One fetched search page. -/
structure SearchPage where
  waitOk : Bool
  cardLists : List (List Card)
  nextHits : List (Option NextBtn)
  deriving Repr

/-- Python truthiness of a get-attribute result: an absent attribute and the
empty string are both falsy. -/
def pyTruthyOpt : Option String → Bool
  | none => false
  | some s => s != ""

/-- Why the crawl loop stopped. -/
inductive StopReason where
  | limitReached
  | waitTimeout
  | noCards
  | noNextButton
  | nextDisabled
  | pageCeiling
  deriving DecidableEq, Repr

/-- One iteration body after the while condition, at page number pc: either
a break with its reason, or the state to continue from (a click on an
enabled next button, or the skipped pagination block when the limit was
reached mid-page). -/
def crawlStep (limit : Int) (site : Nat → SearchPage) (st : ScrapeState) (pc : Nat) :
    (ScrapeState × Nat × StopReason) ⊕ ScrapeState :=
  if (site pc).waitOk = false then Sum.inl (st, pc, StopReason.waitTimeout)
  else if (firstNonempty (site pc).cardLists).isEmpty then
    Sum.inl (st, pc, StopReason.noCards)
  else if ((processCards limit st (firstNonempty (site pc).cardLists)).papers.length : Int)
      < limit then
    match firstSome (site pc).nextHits with
    | none =>
      Sum.inl (processCards limit st (firstNonempty (site pc).cardLists), pc,
        StopReason.noNextButton)
    | some b =>
      if b.enabled = true ∧ pyTruthyOpt b.disabledAttr = false then
        Sum.inr (processCards limit st (firstNonempty (site pc).cardLists))
      else
        Sum.inl (processCards limit st (firstNonempty (site pc).cardLists), pc,
          StopReason.nextDisabled)
  else Sum.inr (processCards limit st (firstNonempty (site pc).cardLists))

/-- The crawl loop, returning the final state, the final page count and the
stop reason. The while condition guards each iteration; after a continuing
iteration the hard page ceiling breaks once the page count exceeds 20. -/
def crawlLoop (limit : Int) (site : Nat → SearchPage) (st : ScrapeState) (pc : Nat) :
    ScrapeState × Nat × StopReason :=
  if limit ≤ (st.papers.length : Int) then (st, pc, StopReason.limitReached)
  else
    Sum.elim (fun r => r)
      (fun st2 =>
        if h : 20 < pc + 1 then (st2, pc + 1, StopReason.pageCeiling)
        else crawlLoop limit site st2 (pc + 1))
      (crawlStep limit site st (pc + 1))
termination_by 21 - pc
decreasing_by omega

/-! Section 10: the command line surface and the top level pipeline. -/

/-- The limit read from the argument vector: index 2 when present, parsed
with Python int, keeping the default 50 when parsing raises ValueError. No
positivity check is applied. -/
def limitFromArgv (argv : List String) : Int :=
  match argv.drop 2 with
  | [] => 50
  | s :: _ =>
    match pyInt s with
    | some n => n
    | none => 50

/-- The run method: the crawl phase, then the author phase, then export, in
sequence with no surrounding try block, so a raise in an earlier phase
propagates and the later phases never run. The two phase outcomes abstract
whether the awaited phase raised. The Bool records whether export was
invoked. -/
def runPipeline (crawl : Except String ScrapeState)
    (authorsPhase : ScrapeState → Except String ScrapeState) :
    Bool × Except String ExportOutcome :=
  match crawl with
  | Except.error e => (false, Except.error e)
  | Except.ok st1 =>
    match authorsPhase st1 with
    | Except.error e => (false, Except.error e)
    | Except.ok st2 => (true, Except.ok (exportData st2))

/-! Section 11: concrete inputs used by individual counterexamples and
witnesses. -/

/-- The fresh scraper state. -/
def emptyState : ScrapeState := ⟨[], [], [], []⟩

/-- A card whose single author link carries a trailing slash, a shape the
id-derivation of the two loops disagrees on. -/
def slashCard : Card :=
  ⟨[some ("T")], [some (some ("/paper/Foo/p1"))], none, [],
    [[("Jane Doe", some ("/author/Jane/456/"))]]⟩

/-- A card with no queries answered at all. -/
def quietCard : Card := ⟨[], [], none, [], []⟩

/-- A page on which neither awaited result selector appears in time, while
the second query selector does find a card and an enabled next button
exists. -/
def hiddenCardsPage : SearchPage :=
  ⟨false, [[], [quietCard], [], []], [some ⟨none, true⟩]⟩

/-- A site showing the hidden-cards page everywhere. -/
def hiddenCardsSite : Nat → SearchPage := fun _ => hiddenCardsPage

/-- A bare card carrying only a title. -/
def titleOnlyCard1 : Card := ⟨[some ("Deep Learning")], [], none, [], []⟩

/-- A different card, with unrelated year, citation and author data, whose
link extraction also fails and whose title resolves to the same string. -/
def titleOnlyCard2 : Card :=
  ⟨[none, some ("Deep Learning")], [none, some none], some ("2019"),
    [some ("12")], [[("A", none)]]⟩

/-- The takeable prefix length of the per-card loop: how many cards are
consumed before the paper count reaches the limit. -/
def pTake (limit : Int) (p n : Nat) : Nat := min n (limit - (p : Int)).toNat

/-- Condition that the stop reason returned by the crawl loop actually held
on the site at the final page: the reason is never fabricated. -/
def stopOk (limit : Int) (site : Nat → SearchPage) :
    ScrapeState × Nat × StopReason → Prop
  | (st, pc, StopReason.limitReached) => limit ≤ (st.papers.length : Int)
  | (st, pc, StopReason.waitTimeout) =>
      (st.papers.length : Int) < limit ∧ (site pc).waitOk = false
  | (st, pc, StopReason.noCards) =>
      (st.papers.length : Int) < limit ∧ (site pc).waitOk = true ∧
        (firstNonempty (site pc).cardLists).isEmpty = true
  | (st, pc, StopReason.noNextButton) =>
      (st.papers.length : Int) < limit ∧ firstSome (site pc).nextHits = none
  | (st, pc, StopReason.nextDisabled) =>
      (st.papers.length : Int) < limit ∧
        ∃ b, firstSome (site pc).nextHits = some b ∧
          ¬(b.enabled = true ∧ pyTruthyOpt b.disabledAttr = false)
  | (_, pc, StopReason.pageCeiling) => 20 < pc

/-! Theorems. General lemmas come first, then one theorem per claim with its
witness or counterexample. -/

/-- A fold by a step that never decreases its accumulator never decreases. -/
theorem foldl_mono_le {α : Type} (g : Nat → α → Nat) (hg : ∀ a x, a ≤ g a x) :
    ∀ (l : List α) (a : Nat), a ≤ l.foldl g a := by
  intro l
  induction l with
  | nil => intro a; exact Nat.le_refl a
  | cons x xs ih => intro a; exact Nat.le_trans (hg a x) (ih (g a x))

/-- A fold by a non-decreasing step dominates any lower bound enforced by a
member of the list. -/
theorem foldl_mem_le {α : Type} (g : Nat → α → Nat) (hg : ∀ a x, a ≤ g a x)
    (v : Nat) : ∀ (l : List α) (x : α), x ∈ l → (∀ a, v ≤ g a x) →
      ∀ a, v ≤ l.foldl g a := by
  intro l
  induction l with
  | nil => intro x hx; exact absurd hx (List.not_mem_nil x)
  | cons y ys ih =>
    intro x hx hv a
    rcases List.mem_cons.mp hx with h | h
    · subst h
      exact Nat.le_trans (hv a) (foldl_mono_le g hg ys (g a x))
    · exact ih x h hv (g a y)

/-- The structured-layer step never decreases the accumulator. -/
theorem strategy1Step_le (acc : Nat) (t : String) : acc ≤ strategy1Step acc t := by
  unfold strategy1Step
  cases htok : firstNumToken t.toList with
  | none => exact Nat.le_refl acc
  | some tok =>
    cases hv : parseNumToken tok with
    | none => simp [hv]
    | some v => by_cases h : v ≤ 1000000 <;> simp [hv, h]

/-- A plausible value parsed from a text is a lower bound of the step on
that text. -/
theorem strategy1Step_ge (t : String) (tok : List Char) (v : Nat)
    (htok : firstNumToken t.toList = some tok)
    (hv : parseNumToken tok = some v) (hr : v ≤ 1000000) :
    ∀ acc, v ≤ strategy1Step acc t := by
  intro acc
  unfold strategy1Step
  simp only [htok, hv]
  have h : 0 ≤ v ∧ v ≤ 1000000 := ⟨Nat.zero_le v, hr⟩
  rw [if_pos h]
  exact le_max_right acc v

/-- Claim C2, counterexample: the structured-row extractor applies no label
filtering at all; with the rows Influential Citations: 900 and
Citations: 500 it returns 900, the value of the influential row, because it
simply keeps the maximum plausible number over all stat elements. The claim
that only rows whose label contains citation and excludes influential are
selected is therefore false. -/
theorem citation_label_filter_cex :
    extractCitationCount ⟨true, [["Influential Citations: 900", "Citations: 500"]], ""⟩
      = 900 ∧ (900 : Nat) ≠ 500 := by
  decide

/-- Claim C2 (amended): the extractor reads every stat element regardless of
label and keeps the maximum value inside the plausibility range; any
plausible value parsed from any element, influential or not, bounds the
result from below. On the claim's specific pair the extracted count is
indeed 12450, but only because 12450 exceeds 900, and with the pair 900 and
500 the influential value 900 wins. -/
theorem citation_max_over_stat_values (statHits : List (List String))
    (grp : List String) (t : String) (tok : List Char) (v : Nat)
    (hgrp : grp ∈ statHits) (ht : t ∈ grp)
    (htok : firstNumToken t.toList = some tok)
    (hv : parseNumToken tok = some v) (hr : v ≤ 1000000) :
    v ≤ strategy1 statHits ∧
    extractCitationCount ⟨true, [["Influential Citations: 900", "Citations: 12,450"]], ""⟩
      = 12450 ∧
    extractCitationCount ⟨true, [["Influential Citations: 900", "Citations: 500"]], ""⟩
      = 900 := by
  refine ⟨?_, by decide, by decide⟩
  unfold strategy1
  have hstep : ∀ a, a ≤ List.foldl strategy1Step a grp :=
    fun a => foldl_mono_le strategy1Step strategy1Step_le grp a
  have hinner : ∀ a, v ≤ List.foldl strategy1Step a grp :=
    fun a => foldl_mem_le strategy1Step strategy1Step_le v grp t ht
      (strategy1Step_ge t tok v htok hv hr) a
  exact foldl_mem_le (fun acc g => List.foldl strategy1Step acc g)
    (fun a g => foldl_mono_le strategy1Step strategy1Step_le g a)
    v statHits grp hgrp hinner 0

/-- Claim C2, witness: the amended theorem applied to the concrete profile
with the influential row 900 and the citation row 500, bounding the result
below by the influential value. -/
theorem citation_max_over_stat_values_witness :
    900 ≤ strategy1 [["Influential Citations: 900", "Citations: 500"]] ∧
    extractCitationCount ⟨true, [["Influential Citations: 900", "Citations: 12,450"]], ""⟩
      = 12450 ∧
    extractCitationCount ⟨true, [["Influential Citations: 900", "Citations: 500"]], ""⟩
      = 900 :=
  citation_max_over_stat_values [["Influential Citations: 900", "Citations: 500"]]
    ["Influential Citations: 900", "Citations: 500"] ("Influential Citations: 900")
    ("900".toList) 900 (by decide) (by decide) (by decide) (by decide) (by decide)

/-- Claim C3, counterexample: the free-text layer applies no plausibility
check; a body text claiming 5,000,000 citations makes the extractor accept
5000000, so the claim that a value outside the range is rejected in every
layer is false. -/
theorem citation_range_third_layer_cex :
    extractCitationCount ⟨true, [], "5,000,000 Citations"⟩ = 5000000 ∧
    ¬(5000000 ≤ 1000000) := by
  decide

/-- Claim C3 (amended): the range check exists only in the structured layer:
a structured candidate above 1000000 leaves the accumulator unchanged, so a
lone implausible stat row yields zero there and extraction falls through to
the free-text layer; but the free-text layer parses without any range check
and accepts 5,000,000. -/
theorem citation_range_structured_only (acc : Nat) (t : String)
    (tok : List Char) (v : Nat) (htok : firstNumToken t.toList = some tok)
    (hv : parseNumToken tok = some v) (hr : 1000000 < v) :
    strategy1Step acc t = acc ∧
    strategy1 [["5,000,000"]] = 0 ∧
    extractCitationCount ⟨true, [["5,000,000"]], ""⟩ = 0 ∧
    extractCitationCount ⟨true, [["5,000,000"]], "5,000,000 Citations"⟩ = 5000000 := by
  refine ⟨?_, by decide, by decide, by decide⟩
  unfold strategy1Step
  simp only [htok, hv]
  have h : ¬(0 ≤ v ∧ v ≤ 1000000) := by omega
  rw [if_neg h]

/-- Claim C3, witness: the amended theorem applied to the implausible
structured row 5,000,000. -/
theorem citation_range_structured_only_witness :
    strategy1Step 0 ("5,000,000") = 0 ∧
    strategy1 [["5,000,000"]] = 0 ∧
    extractCitationCount ⟨true, [["5,000,000"]], ""⟩ = 0 ∧
    extractCitationCount ⟨true, [["5,000,000"]], "5,000,000 Citations"⟩ = 5000000 :=
  citation_range_structured_only 0 ("5,000,000") ("5,000,000".toList) 5000000
    (by decide) (by decide) (by decide)

/-- Processing one author element never touches the papers list. -/
theorem processAuthorEl_papers (pid : String) (st : ScrapeState)
    (ae : String × Option String) :
    (processAuthorEl pid st ae).papers = st.papers := by
  rcases ae with ⟨nm, href⟩
  cases href with
  | none => rfl
  | some h =>
    by_cases hv : authorHrefValid h
    · simp only [processAuthorEl, hv]
      split_ifs <;> simp
    · simp [processAuthorEl, hv]

/-- Processing one author element appends exactly its relation row, if any. -/
theorem processAuthorEl_links (pid : String) (st : ScrapeState)
    (ae : String × Option String) :
    (processAuthorEl pid st ae).paper_authors
      = st.paper_authors ++ (linkOf pid ae).toList := by
  rcases ae with ⟨nm, href⟩
  cases href with
  | none => simp [processAuthorEl, linkOf]
  | some h =>
    by_cases hv : authorHrefValid h
    · simp only [processAuthorEl, linkOf, hv]
      split_ifs <;> simp
    · simp [processAuthorEl, linkOf, hv]

/-- The author fold of a card never touches the papers list. -/
theorem foldl_processAuthorEl_papers (pid : String) :
    ∀ (els : List (String × Option String)) (st : ScrapeState),
      (els.foldl (processAuthorEl pid) st).papers = st.papers := by
  intro els
  induction els with
  | nil => intro st; rfl
  | cons ae els ih =>
    intro st
    rw [List.foldl_cons, ih, processAuthorEl_papers]

/-- The author fold of a card appends exactly the relation rows of its
elements. -/
theorem foldl_processAuthorEl_links (pid : String) :
    ∀ (els : List (String × Option String)) (st : ScrapeState),
      (els.foldl (processAuthorEl pid) st).paper_authors
        = st.paper_authors ++ els.filterMap (linkOf pid) := by
  intro els
  induction els with
  | nil => intro st; simp
  | cons ae els ih =>
    intro st
    rw [List.foldl_cons, ih, processAuthorEl_links, List.filterMap_cons]
    cases linkOf pid ae <;> simp

/-- Processing a card appends exactly its paper row. -/
theorem processCard_papers (st : ScrapeState) (c : Card) :
    (processCard st c).papers = st.papers ++ [paperRowOf c] := by
  unfold processCard
  rw [foldl_processAuthorEl_papers]

/-- Processing a card appends exactly its relation rows. -/
theorem processCard_links (st : ScrapeState) (c : Card) :
    (processCard st c).paper_authors = st.paper_authors ++ linkRowsOfCard c := by
  unfold processCard linkRowsOfCard
  rw [foldl_processAuthorEl_links]

/-- The page loop consumes exactly the takeable prefix of its cards: the
resulting papers and relation rows are the initial ones followed by the rows
of that prefix. -/
theorem processCards_fields (limit : Int) :
    ∀ (cs : List Card) (st : ScrapeState),
      (processCards limit st cs).papers
        = st.papers ++
          (cs.take (pTake limit st.papers.length cs.length)).map paperRowOf
      ∧ (processCards limit st cs).paper_authors
        = st.paper_authors ++
          ((cs.take (pTake limit st.papers.length cs.length)).map linkRowsOfCard).flatten := by
  intro cs
  induction cs with
  | nil => intro st; constructor <;> simp [processCards]
  | cons c cs ih =>
    intro st
    by_cases hle : limit ≤ (st.papers.length : Int)
    · have h0 : pTake limit st.papers.length (c :: cs).length = 0 := by
        unfold pTake; omega
      rw [h0]
      constructor <;> simp [processCards, hle]
    · have hlt : (st.papers.length : Int) < limit := by omega
      have h1 : pTake limit st.papers.length (c :: cs).length
          = pTake limit (st.papers.length + 1) cs.length + 1 := by
        unfold pTake
        simp only [List.length_cons]
        omega
      have hcard : (processCard st c).papers.length = st.papers.length + 1 := by
        rw [processCard_papers]; simp
      have hmain := ih (processCard st c)
      rw [h1]
      constructor
      · have := hmain.1
        rw [hcard] at this
        rw [processCards, if_neg (by omega), this, processCard_papers]
        simp [List.take_succ_cons]
      · have := hmain.2
        rw [hcard] at this
        rw [processCards, if_neg (by omega), this, processCard_links]
        simp [List.take_succ_cons]

/-- Reprocessing consumes no more cards than the first pass. -/
theorem pTake_twice_le (limit : Int) (p n : Nat) :
    pTake limit (p + pTake limit p n) n ≤ pTake limit p n := by
  unfold pTake; omega

/-- Every element kept by the keyed keep-first dedup comes from the input. -/
theorem dedupByAux_mem {α β : Type} [DecidableEq β] (f : α → β) :
    ∀ (l : List α) (seen : List β) (y : α),
      y ∈ dedupByAux f seen l → y ∈ l := by
  intro l
  induction l with
  | nil => intro seen y h; simp [dedupByAux] at h
  | cons x xs ih =>
    intro seen y h
    rw [dedupByAux] at h
    by_cases hx : f x ∈ seen
    · rw [if_pos hx] at h
      exact List.mem_cons_of_mem x (ih seen y h)
    · rw [if_neg hx] at h
      rcases List.mem_cons.mp h with h | h
      · exact h ▸ List.mem_cons_self x xs
      · exact List.mem_cons_of_mem x (ih (f x :: seen) y h)

/-- The keyed dedup depends on the seen keys only through membership. -/
theorem dedupByAux_congr {α β : Type} [DecidableEq β] (f : α → β) :
    ∀ (l : List α) (s1 s2 : List β), (∀ b, b ∈ s1 ↔ b ∈ s2) →
      dedupByAux f s1 l = dedupByAux f s2 l := by
  intro l
  induction l with
  | nil => intro s1 s2 _; rfl
  | cons x xs ih =>
    intro s1 s2 hs
    rw [dedupByAux, dedupByAux]
    by_cases hx : f x ∈ s1
    · rw [if_pos hx, if_pos ((hs (f x)).mp hx)]
      exact ih s1 s2 hs
    · rw [if_neg hx, if_neg (fun h => hx ((hs (f x)).mpr h))]
      rw [ih (f x :: s1) (f x :: s2) (by intro b; simp [hs b])]

/-- The keyed dedup of an appended list splits, the second part running with
the first part's keys marked as seen. -/
theorem dedupByAux_append {α β : Type} [DecidableEq β] (f : α → β) :
    ∀ (xs ys : List α) (seen : List β),
      dedupByAux f seen (xs ++ ys)
        = dedupByAux f seen xs ++ dedupByAux f (xs.map f ++ seen) ys := by
  intro xs
  induction xs with
  | nil => intro ys seen; simp [dedupByAux]
  | cons x xs ih =>
    intro ys seen
    rw [List.cons_append, dedupByAux, dedupByAux]
    by_cases hx : f x ∈ seen
    · rw [if_pos hx, if_pos hx, ih]
      have hsets : ∀ b, b ∈ xs.map f ++ seen ↔ b ∈ (x :: xs).map f ++ seen := by
        intro b
        simp only [List.map_cons, List.cons_append, List.mem_cons, List.mem_append]
        constructor
        · intro hb; exact Or.inr hb
        · rintro (rfl | hb)
          · exact Or.inr hx
          · exact hb
      rw [dedupByAux_congr f ys (xs.map f ++ seen) ((x :: xs).map f ++ seen) hsets]
    · rw [if_neg hx, if_neg hx, ih]
      have hsets : ∀ b, b ∈ xs.map f ++ f x :: seen ↔ b ∈ (x :: xs).map f ++ seen := by
        intro b
        simp only [List.map_cons, List.cons_append, List.mem_cons, List.mem_append]
        tauto
      rw [dedupByAux_congr f ys (xs.map f ++ f x :: seen) ((x :: xs).map f ++ seen) hsets]
      simp

/-- A list whose keys were all seen already dedups to nothing. -/
theorem dedupByAux_nil_of_subsumed {α β : Type} [DecidableEq β] (f : α → β) :
    ∀ (ys : List α) (seen : List β), (∀ y ∈ ys, f y ∈ seen) →
      dedupByAux f seen ys = [] := by
  intro ys
  induction ys with
  | nil => intro seen _; rfl
  | cons y ys ih =>
    intro seen hsub
    rw [dedupByAux, if_pos (hsub y (List.mem_cons_self y ys))]
    exact ih seen (fun z hz => hsub z (List.mem_cons_of_mem y hz))

/-- Appending rows whose keys already occur does not change the exported
table. -/
theorem dedupBy_append_subsumed {α β : Type} [DecidableEq β] (f : α → β)
    (xs ys : List α) (h : ∀ y ∈ ys, f y ∈ xs.map f) :
    dedupBy f (xs ++ ys) = dedupBy f xs := by
  unfold dedupBy
  rw [dedupByAux_append]
  rw [dedupByAux_nil_of_subsumed f ys (xs.map f ++ [])
    (by intro y hy; simpa using h y hy)]
  simp

/-- The keys kept by the keyed dedup are pairwise distinct and disjoint from
the seen set. -/
theorem dedupByAux_keys {α β : Type} [DecidableEq β] (f : α → β) :
    ∀ (l : List α) (seen : List β),
      ((dedupByAux f seen l).map f).Nodup ∧
      ∀ y ∈ dedupByAux f seen l, f y ∉ seen := by
  intro l
  induction l with
  | nil => intro seen; simp [dedupByAux]
  | cons x xs ih =>
    intro seen
    rw [dedupByAux]
    by_cases hx : f x ∈ seen
    · rw [if_pos hx]; exact ih seen
    · rw [if_neg hx]
      rcases ih (f x :: seen) with ⟨hnodup, hfresh⟩
      refine ⟨?_, ?_⟩
      · rw [List.map_cons, List.nodup_cons]
        refine ⟨?_, hnodup⟩
        intro hmem
        rcases List.mem_map.mp hmem with ⟨y, hy, hyx⟩
        exact hfresh y hy (hyx ▸ List.mem_cons_self (f x) seen)
      · intro y hy
        rcases List.mem_cons.mp hy with h | h
        · exact h ▸ hx
        · intro hc
          exact hfresh y h (List.mem_cons_of_mem (f x) hc)

/-- The exported keys are pairwise distinct. -/
theorem dedupBy_keys_nodup {α β : Type} [DecidableEq β] (f : α → β)
    (l : List α) : ((dedupBy f l).map f).Nodup :=
  (dedupByAux_keys f l []).1

/-- Searching the dedupped list for a key not yet seen finds exactly what a
search of the raw list finds: the first occurrence survives dedup. -/
theorem dedupByAux_find {α β : Type} [DecidableEq β] (f : α → β) (K : β) :
    ∀ (l : List α) (seen : List β), K ∉ seen →
      (dedupByAux f seen l).find? (fun x => decide (f x = K))
        = l.find? (fun x => decide (f x = K)) := by
  intro l
  induction l with
  | nil => intro seen _; rfl
  | cons x xs ih =>
    intro seen hK
    rw [dedupByAux]
    by_cases hx : f x ∈ seen
    · rw [if_pos hx, ih seen hK, List.find?_cons]
      have hfx : ¬ f x = K := fun h => hK (h ▸ hx)
      simp [hfx]
    · rw [if_neg hx, List.find?_cons, List.find?_cons]
      by_cases hfx : f x = K
      · simp [hfx]
      · have hK2 : K ∉ f x :: seen := by
          intro h
          rcases List.mem_cons.mp h with h | h
          · exact hfx h.symm
          · exact hK h
        have hdec : decide (f x = K) = false := by simp [hfx]
        simp only [hdec]
        exact ih (f x :: seen) hK2

/-- First occurrence wins in an exported table. -/
theorem dedupBy_find {α β : Type} [DecidableEq β] (f : α → β) (K : β)
    (l : List α) :
    (dedupBy f l).find? (fun x => decide (f x = K))
      = l.find? (fun x => decide (f x = K)) :=
  dedupByAux_find f K l [] (List.not_mem_nil K)

/-- Claim C6: processing the same page of cards twice yields the exported
tables of a single pass: the second pass consumes a prefix of the same cards
whose rows are key-subsumed, export deduplicates papers on paper_id and the
relation rows on the whole pair, the exported keys and pairs are pairwise
distinct, and the record kept per key is the first one appended. -/
theorem reprocessed_page_export_deduped (limit : Int) (st : ScrapeState)
    (cs : List Card) :
    exportedPapers (processCards limit (processCards limit st cs) cs)
      = exportedPapers (processCards limit st cs)
    ∧ exportedPaperAuthors (processCards limit (processCards limit st cs) cs)
      = exportedPaperAuthors (processCards limit st cs)
    ∧ ((exportedPapers (processCards limit (processCards limit st cs) cs)).map
        (fun r => r.paper_id)).Nodup
    ∧ (exportedPaperAuthors (processCards limit (processCards limit st cs) cs)).Nodup
    ∧ ∀ K, (exportedPapers (processCards limit (processCards limit st cs) cs)).find?
          (fun r => decide (r.paper_id = K))
        = (processCards limit (processCards limit st cs) cs).papers.find?
          (fun r => decide (r.paper_id = K)) := by
  rcases processCards_fields limit cs st with ⟨hp1, hl1⟩
  rcases processCards_fields limit cs (processCards limit st cs) with ⟨hp2, hl2⟩
  set k1 := pTake limit st.papers.length cs.length with hk1
  have hlen1 : (processCards limit st cs).papers.length
      = st.papers.length + k1 := by
    rw [hp1]
    simp [hk1, pTake]
  set k2 := pTake limit (processCards limit st cs).papers.length cs.length with hk2
  have hk2le : k2 ≤ k1 := by
    rw [hk2, hlen1, hk1]
    exact pTake_twice_le limit st.papers.length cs.length
  have htake : cs.take k2 = (cs.take k1).take k2 := by
    rw [List.take_take, min_eq_left hk2le]
  have hsubP : ∀ y ∈ (cs.take k2).map paperRowOf,
      (fun r => r.paper_id) y ∈
        ((processCards limit st cs).papers).map (fun r => r.paper_id) := by
    intro y hy
    rcases List.mem_map.mp hy with ⟨c, hc, rfl⟩
    have hc1 : c ∈ cs.take k1 := by
      rw [htake] at hc
      exact List.take_subset k2 (cs.take k1) hc
    apply List.mem_map_of_mem
    rw [hp1]
    exact List.mem_append_right _ (List.mem_map_of_mem paperRowOf hc1)
  have hsubL : ∀ y ∈ ((cs.take k2).map linkRowsOfCard).flatten,
      (fun r => r) y ∈ ((processCards limit st cs).paper_authors).map (fun r => r) := by
    intro y hy
    rcases List.mem_flatten.mp hy with ⟨rows, hrows, hyr⟩
    rcases List.mem_map.mp hrows with ⟨c, hc, rfl⟩
    have hc1 : c ∈ cs.take k1 := by
      rw [htake] at hc
      exact List.take_subset k2 (cs.take k1) hc
    apply List.mem_map_of_mem
    rw [hl1]
    refine List.mem_append_right _ ?_
    exact List.mem_flatten.mpr ⟨linkRowsOfCard c, List.mem_map_of_mem linkRowsOfCard hc1, hyr⟩
  have hP : exportedPapers (processCards limit (processCards limit st cs) cs)
      = exportedPapers (processCards limit st cs) := by
    unfold exportedPapers
    rw [hp2]
    exact dedupBy_append_subsumed (fun r => r.paper_id)
      (processCards limit st cs).papers ((cs.take k2).map paperRowOf) hsubP
  have hL : exportedPaperAuthors (processCards limit (processCards limit st cs) cs)
      = exportedPaperAuthors (processCards limit st cs) := by
    unfold exportedPaperAuthors
    rw [hl2]
    exact dedupBy_append_subsumed (fun r => r)
      (processCards limit st cs).paper_authors
      (((cs.take k2).map linkRowsOfCard).flatten) hsubL
  refine ⟨hP, hL, ?_, ?_, ?_⟩
  · unfold exportedPapers
    exact dedupBy_keys_nodup (fun r : PaperRow => r.paper_id)
      (processCards limit (processCards limit st cs) cs).papers
  · unfold exportedPaperAuthors
    have := dedupBy_keys_nodup (fun r : LinkRow => r)
      (processCards limit (processCards limit st cs) cs).paper_authors
    simpa using this
  · intro K
    unfold exportedPapers
    exact dedupBy_find (fun r : PaperRow => r.paper_id) K
      (processCards limit (processCards limit st cs) cs).papers

/-- An iteration that breaks reports its own page number, and a stop reason
whose condition holds on the site. -/
theorem crawlStep_inl (limit : Int) (site : Nat → SearchPage) (st : ScrapeState)
    (pc : Nat) (r : ScrapeState × Nat × StopReason)
    (hlt : (st.papers.length : Int) < limit)
    (h : crawlStep limit site st pc = Sum.inl r) :
    stopOk limit site r ∧ r.2.1 = pc := by
  unfold crawlStep at h
  by_cases hw : (site pc).waitOk = false
  · rw [if_pos hw] at h
    injection h with h2
    subst h2
    exact ⟨⟨hlt, hw⟩, rfl⟩
  · rw [if_neg hw] at h
    have hw2 : (site pc).waitOk = true := by
      cases hwk : (site pc).waitOk
      · exact absurd hwk hw
      · rfl
    by_cases hc : (firstNonempty (site pc).cardLists).isEmpty = true
    · rw [if_pos hc] at h
      injection h with h2
      subst h2
      exact ⟨⟨hlt, hw2, hc⟩, rfl⟩
    · rw [if_neg hc] at h
      by_cases hp : ((processCards limit st (firstNonempty (site pc).cardLists)).papers.length : Int) < limit
      · rw [if_pos hp] at h
        cases hb : firstSome (site pc).nextHits with
        | none =>
          simp only [hb] at h
          injection h with h2
          subst h2
          exact ⟨⟨hp, hb⟩, rfl⟩
        | some b =>
          simp only [hb] at h
          by_cases he : b.enabled = true ∧ pyTruthyOpt b.disabledAttr = false
          · rw [if_pos he] at h
            cases h
          · rw [if_neg he] at h
            injection h with h2
            subst h2
            exact ⟨⟨hp, b, hb, he⟩, rfl⟩
      · rw [if_neg hp] at h
        cases h

/-- The crawl loop terminates within the page ceiling and always stops for a
reason whose condition holds: induction on the remaining page budget. -/
theorem crawlLoop_bound_aux (limit : Int) (site : Nat → SearchPage) :
    ∀ (n pc : Nat) (st : ScrapeState), 21 - pc ≤ n →
      ((crawlLoop limit site st pc).2.1 ≤ pc + 1 ∨ (crawlLoop limit site st pc).2.1 ≤ 21)
      ∧ stopOk limit site (crawlLoop limit site st pc) := by
  intro n
  induction n with
  | zero =>
    intro pc st hn
    unfold crawlLoop
    by_cases hle : limit ≤ (st.papers.length : Int)
    · rw [if_pos hle]
      exact ⟨Or.inl (Nat.le_succ pc), hle⟩
    · rw [if_neg hle]
      cases hstep : crawlStep limit site st (pc + 1) with
      | inl r =>
        rw [Sum.elim_inl]
        rcases crawlStep_inl limit site st (pc + 1) r (by omega) hstep with ⟨hstop, hpc⟩
        exact ⟨Or.inl (le_of_eq hpc), hstop⟩
      | inr st2 =>
        rw [Sum.elim_inr]
        have h20 : 20 < pc + 1 := by omega
        rw [dif_pos h20]
        exact ⟨Or.inl (Nat.le_refl (pc + 1)), h20⟩
  | succ n ih =>
    intro pc st hn
    unfold crawlLoop
    by_cases hle : limit ≤ (st.papers.length : Int)
    · rw [if_pos hle]
      exact ⟨Or.inl (Nat.le_succ pc), hle⟩
    · rw [if_neg hle]
      cases hstep : crawlStep limit site st (pc + 1) with
      | inl r =>
        rw [Sum.elim_inl]
        rcases crawlStep_inl limit site st (pc + 1) r (by omega) hstep with ⟨hstop, hpc⟩
        exact ⟨Or.inl (le_of_eq hpc), hstop⟩
      | inr st2 =>
        rw [Sum.elim_inr]
        by_cases h20 : 20 < pc + 1
        · rw [dif_pos h20]
          exact ⟨Or.inl (Nat.le_refl (pc + 1)), h20⟩
        · rw [dif_neg h20]
          rcases ih (pc + 1) st2 (by omega) with ⟨hbound, hstop⟩
          refine ⟨?_, hstop⟩
          rcases hbound with h1 | h1
          · exact Or.inr (by omega)
          · exact Or.inr (by omega)

/-- Claim C9, counterexample: a page on which both awaited result selectors
time out stops the crawl at once, even though none of the four claimed
conditions holds there: the paper count is below the limit, the query
cascade does find a card, an enabled next button exists, and the page
ceiling is far away. The claim that the loop stops exactly when one of the
four conditions first holds is therefore false. -/
theorem crawl_stop_condition_cex :
    crawlLoop 50 hiddenCardsSite emptyState 0
      = (emptyState, 1, StopReason.waitTimeout)
    ∧ ((emptyState.papers.length : Int) < 50)
    ∧ firstNonempty (hiddenCardsSite 1).cardLists ≠ []
    ∧ firstSome (hiddenCardsSite 1).nextHits = some ⟨none, true⟩
    ∧ (NextBtn.mk none true).enabled = true
    ∧ pyTruthyOpt (NextBtn.mk none true).disabledAttr = false
    ∧ ¬(20 < 1) := by
  refine ⟨?_, by decide, by decide, by decide, by decide, by decide, by decide⟩
  unfold crawlLoop
  decide

/-- Claim C9 (amended): the crawl loop always terminates, visiting at most
21 pages, and it stops with a reason whose condition actually held: the
collected count reached the limit, or the wait for the result selectors
timed out, or the queried page yielded zero cards, or no next button was
found or the found one was disabled, or the hard page ceiling was
exceeded. -/
theorem crawl_loop_terminates_with_stop_condition (limit : Int)
    (site : Nat → SearchPage) (st : ScrapeState) :
    (crawlLoop limit site st 0).2.1 ≤ 21 ∧
    stopOk limit site (crawlLoop limit site st 0) := by
  have h := crawlLoop_bound_aux limit site 21 0 st (by omega)
  refine ⟨?_, h.2⟩
  rcases h.1 with h1 | h1 <;> omega

/-- Claim C1, counterexample: a run whose crawl phase raises terminates with
that error and never invokes export, so the claim that every run attempts
export before terminating is false. -/
theorem run_pipeline_skips_export_cex :
    runPipeline (Except.error ("page.goto timeout")) Except.ok
      = (false, Except.error ("page.goto timeout")) := rfl

/-- Claim C1 (amended): export is attempted if and only if both the crawl
phase and the author phase complete without raising; a fatal failure in
either phase propagates out of run and export is skipped, losing the partial
results. -/
theorem export_attempted_iff_phases_ok (crawl : Except String ScrapeState)
    (authorsPhase : ScrapeState → Except String ScrapeState) :
    (runPipeline crawl authorsPhase).1 = true ↔
      ∃ st1 st2, crawl = Except.ok st1 ∧ authorsPhase st1 = Except.ok st2 := by
  cases crawl with
  | error e => simp [runPipeline]
  | ok st1 =>
    cases h : authorsPhase st1 with
    | error e => simp [runPipeline, h]
    | ok st2 => simp [runPipeline, h]

/-- Claim C1, witness: a run in which both phases complete does attempt
export, by the amended theorem applied to concrete phase outcomes. -/
theorem export_attempted_iff_phases_ok_witness :
    (runPipeline (Except.ok emptyState) Except.ok).1 = true :=
  (export_attempted_iff_phases_ok (Except.ok emptyState) Except.ok).mpr
    ⟨emptyState, emptyState, rfl, rfl⟩

/-- Claim C4, counterexample: the stat element text 3.2k is parsed to 3, not
3200; the trailing k suffix is not interpreted as a factor of one thousand. -/
theorem citation_parse_ksuffix_cex :
    extractCitationCount ⟨true, [["3.2k"]], ""⟩ = 3 ∧ (3 : Nat) ≠ 3200 := by
  decide

/-- Claim C4 (amended): the numeric parse used on citation candidates strips
thousands separators, so 12,450 parses to 12450, but it has no k-suffix
support: on 3.2k the matched group is the single digit 3 and the parsed
value is 3. -/
theorem citation_parse_commas_no_ksuffix :
    parseNumToken ("12,450".toList) = some 12450 ∧
    extractCitationCount ⟨true, [["12,450"]], ""⟩ = 12450 ∧
    firstNumToken ("3.2k".toList) = some ("3".toList) ∧
    parseNumToken ("3".toList) = some 3 ∧
    extractCitationCount ⟨true, [["3.2k"]], ""⟩ = 3 := by
  decide

/-- Claim C5: evaluation at the failing input. The search side stores the
author under the slash-stripped id 456 and queues the absolute url with its
trailing slash; the visit side derives the id from the raw url, obtaining
the empty string, so the citation update raises KeyError, uncaught even on
the failure path, and the author loop aborts instead of recording null and
advancing. -/
theorem author_visit_keyerror_aborts :
    (processCards 50 emptyState [slashCard]).queue
      = ["https://www.semanticscholar.org/author/Jane/456/"] ∧
    hasAuthorKey (processCards 50 emptyState [slashCard]).authors ("456") = true ∧
    lastComp (("https://www.semanticscholar.org/author/Jane/456/").toList) = "" ∧
    scrapeAuthorProfiles (processCards 50 emptyState [slashCard]).authors
      (processCards 50 emptyState [slashCard]).queue (fun _ => VisitOutcome.failed)
      = Except.error ("") := by
  refine ⟨by decide, by decide, by decide, ?_⟩
  rfl

/-- Claim C7: for every card whose link extraction fails, the generated
paper id depends on the title alone; two cards with equal titles and failed
link extraction receive the identical id, whatever their other fields. -/
theorem fallback_paper_id_deterministic (c1 c2 : Card)
    (h1 : resolvePaperLink c1.linkHits = none)
    (h2 : resolvePaperLink c2.linkHits = none)
    (ht : cardTitle c1 = cardTitle c2) :
    paperIdOf c1 = paperIdOf c2 := by
  unfold paperIdOf
  rw [h1, h2, ht]

/-- Claim C7, witness: two concrete cards differing in every field except
the resolved title receive the same fallback id. -/
theorem fallback_paper_id_deterministic_witness :
    paperIdOf titleOnlyCard1 = paperIdOf titleOnlyCard2 :=
  fallback_paper_id_deterministic titleOnlyCard1 titleOnlyCard2 rfl rfl rfl

/-- Claim C8, counterexample: the argument -5 parses, is accepted as the
limit unchanged, is not positive, and is not replaced by the default 50, so
the claim that every invalid limit falls back to 50 is false. -/
theorem limit_argument_positive_cex :
    limitFromArgv ["main.py", "computer architecture", "-5"] = -5 ∧
    ¬(0 < limitFromArgv ["main.py", "computer architecture", "-5"]) ∧
    limitFromArgv ["main.py", "computer architecture", "-5"] ≠ 50 := by
  decide

/-- Claim C8 (amended): the limit defaults to 50 when absent; an argument
that fails integer parsing falls back to 50 with a warning; an argument that
parses as an integer is used as given, with no positivity check, so zero and
negative limits are accepted. -/
theorem limit_argument_fallback (p q s : String) (rest : List String) :
    limitFromArgv [] = 50 ∧ limitFromArgv [p] = 50 ∧ limitFromArgv [p, q] = 50 ∧
    (pyInt s = none → limitFromArgv (p :: q :: s :: rest) = 50) ∧
    (∀ n : Int, pyInt s = some n → limitFromArgv (p :: q :: s :: rest) = n) := by
  refine ⟨rfl, rfl, rfl, ?_, ?_⟩
  · intro h; simp [limitFromArgv, h]
  · intro n h; simp [limitFromArgv, h]

/-- Claim C8, witness: the fallback theorem applied to an unparseable
argument and to a negative argument. -/
theorem limit_argument_fallback_witness :
    limitFromArgv ["main.py", "q", "abc"] = 50 ∧
    limitFromArgv ["main.py", "q", "-5"] = -5 :=
  ⟨(limit_argument_fallback ("main.py") ("q") ("abc") []).2.2.2.1 (by decide),
   (limit_argument_fallback ("main.py") ("q") ("-5") []).2.2.2.2 (-5) (by decide)⟩

/-- Claim C10, counterexample: with zero collected papers export stops at
once with a KeyError from the papers deduplication (the empty frame has no
paper_id column); no csv file is written and no division-by-zero is ever
reached, so the claimed behavior is false. -/
theorem export_empty_keyerror_cex :
    exportData emptyState = ⟨[], some ("KeyError: paper_id")⟩ ∧
    (exportData emptyState).filesWritten ≠
      ["papers.csv", "authors.csv", "paper_authors.csv"] ∧
    (exportData emptyState).errorRaised ≠ some ("ZeroDivisionError") := by
  decide

/-- Claim C10 (amended): if the run collected zero papers, export raises a
KeyError at the papers deduplication step before writing any file, so export
does not complete normally on an empty result set. -/
theorem export_empty_raises_before_writing (st : ScrapeState)
    (h : st.papers = []) :
    exportData st = ⟨[], some ("KeyError: paper_id")⟩ := by
  unfold exportData
  simp [h]

/-- Claim C10, witness: the amended theorem evaluated on the fresh state. -/
theorem export_empty_raises_before_writing_witness :
    exportData ⟨[], [], [], []⟩ = ⟨[], some ("KeyError: paper_id")⟩ :=
  export_empty_raises_before_writing ⟨[], [], [], []⟩ rfl
